import Mathlib

/-!
Shallow embedding of `src/parts/dimensions.py` from the pARTS repository.

The `Dimension` class keeps, per dimension object, a dictionary
`deductions` mapping a workspace (the opaque simulation context) to the
ordered list of `(value, who)` pairs recorded for it.  The methods
`add_deduction`, `check` and `get_value` are translated below as pure
functions on that dictionary; exceptions become `Except` error values.
The `Joker` subclass overrides all three methods and is translated
separately.
-/

namespace PARTS

/-- One recorded deduction: a `(value, who)` pair, where `value` is the
deduced integer dimension and `who` the name of the variable it was
deduced from (`Dimension.add_deduction`). -/
abbrev Deduction := Int × String

/-- Workspace (simulation context) identity.  The Python code only ever
uses the workspace object as an opaque dictionary key, so any type with
decidable equality models it faithfully; we use natural numbers. -/
abbrev Ctx := Nat

/-- The `deductions` dictionary of one `Dimension` object: a partial map
from workspace identity to the ordered list of recorded deductions. -/
abbrev DimState := Ctx → Option (List Deduction)

/-- The empty dictionary `deductions` created by `Dimension.__init__`. -/
def emptyDeductions : DimState := fun _ => none

/-- The exceptions `dimensions.py` can raise, as distinguishable error
values.  `noDeduction msg` covers the two bare `Exception(msg)` raises
that the spec groups under `NoDeductionError` (in `check`, line 84, and
in `get_value`, line 127; they differ in their message).  `typeError`
models the `TypeError` Python raises at `check` line 102: the argument
of the intended `Exception` concatenates a string with the *list* `ls`,
which fails before the exception object is built.  `keyError` models
indexing a dictionary with a missing key.  `unsupported` models the
`Exception` of `Joker.get_value` (the spec name is
`UnsupportedOperationError`; the source message is "Can~t get the value
of a joker dimension." with an apostrophe). -/
inductive DimError
  | noDeduction (msg : String)
  | typeError
  | keyError
  | unsupported
  deriving DecidableEq, Repr

/-- Message of the `Exception` raised by `Dimension.check` when the
workspace has no entry in `deductions` (lines 84-85). -/
def noDeductionsMsg : String :=
  "No deductions have been made for the given workspace."

/-- Message of the `Exception` raised by `Dimension.get_value` when the
deduction list is empty (lines 127-128); the source never calls
`.format` on it, so the placeholder stays literal. -/
def noValueMsg : String :=
  "No value for dimension of the {0} has been deduced."

/-- Lines 65-68 of `Dimension.add_deduction`: if the workspace is not yet
a key of `deductions`, bind it to the singleton list `[(value, who)]`;
otherwise append `(value, who)` to its list. -/
def add_deduction (st : DimState) (ws : Ctx) (value : Int) (who : String) :
    DimState :=
  fun c =>
    if c = ws then
      match st ws with
      | none => some [(value, who)]
      | some ds => some (ds ++ [(value, who)])
    else st c

/-- Lines 89-95 of `Dimension.check`: the nested loop collecting every
index pair `(i, j)` with `i < j` whose recorded values differ
(`if not u == v`).  Python `range(i + 1, n)` is rendered as the elements
of `range n` that are at least `i + 1` (the same indices in the same
order). -/
def inconsistencies (ds : List Deduction) : List (Nat × Nat) :=
  (List.range ds.length).flatMap fun i =>
    (((List.range ds.length).filter fun j => decide (i + 1 ≤ j)).filter
        fun j => decide (¬ (ds.getD i (0, "")).1 = (ds.getD j (0, "")).1)).map
      fun j => (i, j)

/-- Lines 83-104 of `Dimension.check`.  A workspace without an entry
raises the no-deductions `Exception`.  Otherwise the nested loop collects
the mismatching index pairs; when at least one was found, the `raise`
statement at line 102 evaluates `"During deduction ... :".format(self.name)
+ ls` where `ls` is a list of strings, and Python aborts with a
`TypeError` (a string cannot be concatenated with a list), so the
intended report of the pairs is never attached.  When no mismatch was
found the method returns `None`. -/
def check (st : DimState) (ws : Ctx) : Except DimError Unit :=
  match st ws with
  | none => .error (.noDeduction noDeductionsMsg)
  | some ds =>
    if (inconsistencies ds).length > 0 then .error .typeError
    else .ok ()

/-- Lines 121-128 of `Dimension.get_value`: first call `check` (its
exception, when raised, propagates unchanged), then look the workspace
up in `deductions` (Python `self.deductions[ws]`, a `KeyError` when the
key is absent — unreachable after `check` succeeded) and return the
first recorded value, or raise when the list is empty. -/
def get_value (st : DimState) (ws : Ctx) : Except DimError Int :=
  match check st ws with
  | .error e => .error e
  | .ok _ =>
    match st ws with
    | none => .error .keyError
    | some ds =>
      if h : ds.length > 0 then .ok (ds.get ⟨0, h⟩).1
      else .error (.noDeduction noValueMsg)

/-- The `Dimension.check` method as a state transformer: its body reads
`self.deductions` but never assigns to it, so the resulting state is the
input state. -/
def checkOp (st : DimState) (ws : Ctx) :
    Except DimError Unit × DimState :=
  (check st ws, st)

/-- The `Dimension.get_value` method as a state transformer: its body
(including the embedded `check` call) never assigns to
`self.deductions`, so the resulting state is the input state. -/
def get_valueOp (st : DimState) (ws : Ctx) :
    Except DimError Int × DimState :=
  (get_value st ws, st)

/-- A sequence of `add_deduction` calls for one workspace, one call per
`(value, who)` pair, in order. -/
def addDeductions (st : DimState) (ws : Ctx) (pairs : List Deduction) :
    DimState :=
  pairs.foldl (fun s p => add_deduction s ws p.1 p.2) st

/-- `Joker.add_deduction` (lines 146-151): `pass`, the state is
untouched. -/
def jokerAdd (st : DimState) (ws : Ctx) (value : Int) (who : String) :
    DimState :=
  st

/-- `Joker.check` (lines 153-158): `pass`, always returns `None`. -/
def jokerCheck (st : DimState) (ws : Ctx) : Except DimError Unit :=
  .ok ()

/-- `Joker.get_value` (lines 160-171): unconditionally raises. -/
def jokerGetValue (st : DimState) (ws : Ctx) : Except DimError Int :=
  .error .unsupported

/-- Invariant of the `deductions` dictionary: every workspace that has an
entry has a non-empty deduction list. -/
def NonEmptyInv (st : DimState) : Prop :=
  ∀ c ds, st c = some ds → ds ≠ []

/-! ### Helper lemmas -/

/-- Membership in the list produced by the nested loop of
`Dimension.check`: exactly the index pairs `i < j < length` whose
recorded values differ. -/
theorem mem_inconsistencies (ds : List Deduction) (i j : Nat) :
    (i, j) ∈ inconsistencies ds ↔
      i < j ∧ j < ds.length ∧ (ds.getD i (0, "")).1 ≠ (ds.getD j (0, "")).1 := by
  simp only [inconsistencies, List.mem_flatMap, List.mem_map, List.mem_filter,
    List.mem_range, decide_eq_true_eq, Prod.mk.injEq]
  constructor
  · rintro ⟨a, ha, b, ⟨⟨⟨hb, hab⟩, hne⟩, rfl, rfl⟩⟩
    exact ⟨by omega, hb, hne⟩
  · rintro ⟨hij, hj, hne⟩
    exact ⟨i, by omega, j, ⟨⟨⟨hj, by omega⟩, hne⟩, rfl, rfl⟩⟩

/-- The loop of `Dimension.check` finds no mismatching pair exactly when
the recorded values are pairwise equal. -/
theorem inconsistencies_eq_nil_iff (ds : List Deduction) :
    inconsistencies ds = [] ↔ ds.Pairwise (fun a b : Deduction => a.1 = b.1) := by
  rw [List.eq_nil_iff_forall_not_mem, List.pairwise_iff_getElem]
  constructor
  · intro h i j hi hj hij
    by_contra hne
    refine h (i, j) ((mem_inconsistencies ds i j).2 ⟨hij, hj, ?_⟩)
    rwa [List.getD_eq_getElem _ _ hi, List.getD_eq_getElem _ _ hj]
  · rintro h ⟨i, j⟩ hmem
    obtain ⟨hij, hj, hne⟩ := (mem_inconsistencies ds i j).1 hmem
    have hi : i < ds.length := lt_trans hij hj
    apply hne
    rw [List.getD_eq_getElem _ _ hi, List.getD_eq_getElem _ _ hj]
    exact h i j hi hj hij

/-- `Dimension.check` reads nothing but the entry of the given workspace
in `deductions`. -/
theorem check_eq_of_lookup_eq {st st2 : DimState} {ws ws2 : Ctx}
    (h : st ws = st2 ws2) : check st ws = check st2 ws2 := by
  unfold check
  rw [h]

/-- `Dimension.get_value` reads nothing but the entry of the given
workspace in `deductions`. -/
theorem get_value_eq_of_lookup_eq {st st2 : DimState} {ws ws2 : Ctx}
    (h : st ws = st2 ws2) : get_value st ws = get_value st2 ws2 := by
  unfold get_value
  rw [check_eq_of_lookup_eq h, h]

/-- `Dimension.check` succeeds on an entry exactly when its recorded
values are pairwise equal. -/
theorem check_ok_iff {st : DimState} {ws : Ctx} {ds : List Deduction}
    (h : st ws = some ds) :
    check st ws = Except.ok () ↔ ds.Pairwise (fun a b : Deduction => a.1 = b.1) := by
  rw [← inconsistencies_eq_nil_iff]
  simp only [check, h]
  by_cases hi : inconsistencies ds = []
  · simp [hi]
  · have hlen : (inconsistencies ds).length > 0 := List.length_pos.2 hi
    simp [hi, hlen]

/-- Effect of one `add_deduction` call on the entry of its own
workspace: the pair is appended at the end (to the empty list when the
workspace had no entry yet). -/
theorem add_deduction_lookup_self (st : DimState) (ws : Ctx) (value : Int)
    (who : String) :
    add_deduction st ws value who ws = some ((st ws).getD [] ++ [(value, who)]) := by
  simp only [add_deduction, if_pos rfl]
  cases h : st ws <;> simp [h]

/-- One `add_deduction` call leaves every other workspace entry
untouched. -/
theorem add_deduction_lookup_other {c ws : Ctx} (st : DimState) (value : Int)
    (who : String) (h : c ≠ ws) :
    add_deduction st ws value who c = st c := by
  simp [add_deduction, h]

/-- Unfolding lemma for a sequence of `add_deduction` calls. -/
theorem addDeductions_cons (st : DimState) (ws : Ctx) (p : Deduction)
    (rest : List Deduction) :
    addDeductions st ws (p :: rest)
      = addDeductions (add_deduction st ws p.1 p.2) ws rest := rfl

/-- A sequence of `add_deduction` calls for workspace `ws` leaves every
other workspace entry untouched. -/
theorem addDeductions_lookup_other {c ws : Ctx} (st : DimState)
    (pairs : List Deduction) (h : c ≠ ws) :
    addDeductions st ws pairs c = st c := by
  induction pairs generalizing st with
  | nil => rfl
  | cons p rest ih =>
    rw [addDeductions_cons, ih, add_deduction_lookup_other st p.1 p.2 h]

/-- A sequence of `add_deduction` calls appends its pairs, in order, to
an existing entry. -/
theorem addDeductions_lookup_self {ws : Ctx} (pairs : List Deduction) :
    ∀ (st : DimState) (ds : List Deduction), st ws = some ds →
      addDeductions st ws pairs ws = some (ds ++ pairs) := by
  induction pairs with
  | nil => intro st ds h; simpa using h
  | cons p rest ih =>
    intro st ds h
    rw [addDeductions_cons]
    have h2 : add_deduction st ws p.1 p.2 ws = some (ds ++ [p]) := by
      rw [add_deduction_lookup_self, h]
      simp
    rw [ih _ _ h2]
    simp

/-- A sequence of `add_deduction` calls starting from a workspace with
no entry records exactly its list of pairs. -/
theorem addDeductions_lookup_none {ws : Ctx} {st : DimState} (h : st ws = none)
    (p : Deduction) (rest : List Deduction) :
    addDeductions st ws (p :: rest) ws = some (p :: rest) := by
  rw [addDeductions_cons]
  have h2 : add_deduction st ws p.1 p.2 ws = some [p] := by
    rw [add_deduction_lookup_self, h]
    simp
  rw [addDeductions_lookup_self rest _ _ h2]
  simp

/-- Pairs built from one common value always have pairwise equal
values. -/
theorem pairwise_fst_map_const (v : Int) (ls : List String) :
    (ls.map fun s => (v, s)).Pairwise (fun a b : Deduction => a.1 = b.1) := by
  induction ls with
  | nil => simp
  | cons a b ih =>
    refine List.Pairwise.cons ?_ ih
    intro y hy
    obtain ⟨s, _, rfl⟩ := List.mem_map.1 hy
    rfl

/-! ### Claim theorems -/

/-- Claim C1 (code analysis, failing input): with two conflicting
deductions recorded for workspace 0 — value 41 from "p_grid" and value
37 from "vmr_field" — the nested loop of `Dimension.check` does collect
the mismatching index pair (0, 1), but `check` fails with the
`TypeError` that Python raises while evaluating the argument of the
`raise` statement (a string is concatenated with the list `ls` of report
lines), so the exception that propagates carries no report of the
mismatching pairs, contrary to the claim. -/
theorem claim_C1_check_fails_with_typeError :
    inconsistencies [((41 : Int), "p_grid"), (37, "vmr_field")] = [(0, 1)] ∧
    check (add_deduction (add_deduction emptyDeductions 0 41 "p_grid") 0 37 "vmr_field") 0
      = Except.error DimError.typeError := by
  constructor <;> rfl

/-- Claim C2: `get_value` calls `check` first and propagates its failure
unchanged; when `check` passes and the workspace has at least one
recorded deduction, it returns the value of the first recorded
deduction; and every non-empty sequence of `add_deduction ws v label`
calls with one common value `v`, starting from a fresh dimension, makes
`check` succeed and `get_value` return `v`. -/
theorem claim_C2_get_value_first_value :
    (∀ (st : DimState) (ws : Ctx) (e : DimError),
        check st ws = Except.error e → get_value st ws = Except.error e) ∧
    (∀ (st : DimState) (ws : Ctx) (v : Int) (who : String) (tl : List Deduction),
        check st ws = Except.ok () → st ws = some ((v, who) :: tl) →
        get_value st ws = Except.ok v) ∧
    (∀ (ws : Ctx) (v : Int) (labels : List String), labels ≠ [] →
        check (addDeductions emptyDeductions ws (labels.map fun l => (v, l))) ws
            = Except.ok () ∧
        get_value (addDeductions emptyDeductions ws (labels.map fun l => (v, l))) ws
            = Except.ok v) := by
  refine ⟨?_, ?_, ?_⟩
  · intro st ws e h
    simp [get_value, h]
  · intro st ws v who tl hc h
    simp [get_value, hc, h]
  · intro ws v labels hne
    obtain ⟨l, rest, rfl⟩ : ∃ l rest, labels = l :: rest := by
      cases labels with
      | nil => exact absurd rfl hne
      | cons a b => exact ⟨a, b, rfl⟩
    have hlook : addDeductions emptyDeductions ws ((l :: rest).map fun s => (v, s)) ws
        = some ((l :: rest).map fun s => (v, s)) :=
      addDeductions_lookup_none rfl (v, l) (rest.map fun s => (v, s))
    have hchk : check (addDeductions emptyDeductions ws ((l :: rest).map fun s => (v, s))) ws
        = Except.ok () :=
      (check_ok_iff hlook).2 (pairwise_fst_map_const v (l :: rest))
    refine ⟨hchk, ?_⟩
    simp only [List.map_cons] at hlook hchk
    simp [get_value, hchk, hlook]

/-- Claim C2 witness: two deductions of the value 41 for workspace 0
(from "p_grid" and "t_field") make `check` succeed and `get_value`
return 41. -/
theorem claim_C2_witness :
    check (addDeductions emptyDeductions 0
        ((["p_grid", "t_field"]).map fun l => ((41 : Int), l))) 0 = Except.ok () ∧
    get_value (addDeductions emptyDeductions 0
        ((["p_grid", "t_field"]).map fun l => ((41 : Int), l))) 0 = Except.ok 41 :=
  claim_C2_get_value_first_value.2.2 0 41 ["p_grid", "t_field"] (List.cons_ne_nil _ _)

/-- Claim C3: on a workspace with an entry, `Dimension.check` returns
normally exactly when all recorded values are pairwise equal (trivially
true for zero or one deductions), and its outcome depends only on the
values, never on the source labels: two entries with the same value
lists give the same `check` result. -/
theorem claim_C3_check_pairwise_values_only :
    ∀ (st : DimState) (ws : Ctx) (ds : List Deduction), st ws = some ds →
      (check st ws = Except.ok () ↔ ds.Pairwise (fun a b : Deduction => a.1 = b.1)) ∧
      (∀ (st2 : DimState) (ws2 : Ctx) (ds2 : List Deduction), st2 ws2 = some ds2 →
        ds.map Prod.fst = ds2.map Prod.fst → check st ws = check st2 ws2) := by
  intro st ws ds h
  refine ⟨check_ok_iff h, ?_⟩
  intro st2 ws2 ds2 h2 hmap
  have hlen : ds.length = ds2.length := by
    simpa using congrArg List.length hmap
  have hval : ∀ i, i < ds.length →
      (ds.getD i (0, "")).1 = (ds2.getD i (0, "")).1 := by
    intro i hi
    have hi2 : i < ds2.length := hlen ▸ hi
    have hq := congrArg (fun l => l[i]?) hmap
    simp only [List.getElem?_map, List.getElem?_eq_getElem hi,
      List.getElem?_eq_getElem hi2, Option.map_some] at hq
    rw [List.getD_eq_getElem _ _ hi, List.getD_eq_getElem _ _ hi2]
    exact Option.some.inj hq
  have hiff : inconsistencies ds = [] ↔ inconsistencies ds2 = [] := by
    simp only [List.eq_nil_iff_forall_not_mem]
    constructor
    · rintro hnone ⟨i, j⟩ hp
      obtain ⟨hij, hj, hne⟩ := (mem_inconsistencies ds2 i j).1 hp
      refine hnone (i, j) ((mem_inconsistencies ds i j).2 ⟨hij, hlen ▸ hj, ?_⟩)
      rw [hval i (by omega), hval j (by omega)]
      exact hne
    · rintro hnone ⟨i, j⟩ hp
      obtain ⟨hij, hj, hne⟩ := (mem_inconsistencies ds i j).1 hp
      refine hnone (i, j) ((mem_inconsistencies ds2 i j).2 ⟨hij, hlen ▸ hj, ?_⟩)
      rw [← hval i (by omega), ← hval j (by omega)]
      exact hne
  by_cases hnil : inconsistencies ds = []
  · have hnil2 := hiff.1 hnil
    simp [check, h, h2, hnil, hnil2]
  · have hnil2 : inconsistencies ds2 ≠ [] := fun hc => hnil (hiff.2 hc)
    have hp1 : (inconsistencies ds).length > 0 := List.length_pos.2 hnil
    have hp2 : (inconsistencies ds2).length > 0 := List.length_pos.2 hnil2
    simp [check, h, h2, hp1, hp2]

/-- Claim C3 witness: on one deduction of 41 `check` succeeds, and
changing only the source label does not change the outcome of
`check`. -/
theorem claim_C3_witness :
    (check (add_deduction emptyDeductions 0 41 "p_grid") 0 = Except.ok () ↔
      ([((41 : Int), "p_grid")]).Pairwise (fun a b : Deduction => a.1 = b.1)) ∧
    check (add_deduction emptyDeductions 0 41 "p_grid") 0
      = check (add_deduction emptyDeductions 0 41 "t_field") 0 := by
  have h := claim_C3_check_pairwise_values_only
    (add_deduction emptyDeductions 0 41 "p_grid") 0 [(41, "p_grid")] rfl
  exact ⟨h.1, h.2 (add_deduction emptyDeductions 0 41 "t_field") 0 [(41, "t_field")] rfl rfl⟩

/-- Claim C4: on a workspace that has no entry in `deductions`, both
`check` and `get_value` fail with the no-deductions exception (the
spec's `NoDeductionError`). -/
theorem claim_C4_no_deduction_error :
    ∀ (st : DimState) (ws : Ctx), st ws = none →
      check st ws = Except.error (DimError.noDeduction noDeductionsMsg) ∧
      get_value st ws = Except.error (DimError.noDeduction noDeductionsMsg) := by
  intro st ws h
  have hc : check st ws = Except.error (DimError.noDeduction noDeductionsMsg) := by
    simp [check, h]
  exact ⟨hc, by simp [get_value, hc]⟩

/-- Claim C4 witness: on the fresh dimension both `check` and
`get_value` fail with the no-deductions exception. -/
theorem claim_C4_witness :
    check emptyDeductions 0 = Except.error (DimError.noDeduction noDeductionsMsg) ∧
    get_value emptyDeductions 0 = Except.error (DimError.noDeduction noDeductionsMsg) :=
  claim_C4_no_deduction_error emptyDeductions 0 rfl

/-- Claim C5: `add_deduction` is total (it always succeeds), appends
`(value, who)` at the end of the workspace's own deduction list —
creating the singleton list when the workspace is seen for the first
time — and leaves the entry of every other workspace unchanged. -/
theorem claim_C5_add_deduction_appends :
    ∀ (st : DimState) (ws : Ctx) (value : Int) (who : String),
      add_deduction st ws value who ws = some ((st ws).getD [] ++ [(value, who)]) ∧
      ∀ c, c ≠ ws → add_deduction st ws value who c = st c :=
  fun st ws value who =>
    ⟨add_deduction_lookup_self st ws value who,
     fun _ hc => add_deduction_lookup_other st value who hc⟩

/-- Claim C5 witness: a first deduction creates the singleton entry and
leaves another workspace without an entry. -/
theorem claim_C5_witness :
    add_deduction emptyDeductions 0 41 "p_grid" 0 = some [((41 : Int), "p_grid")] ∧
    add_deduction emptyDeductions 0 41 "p_grid" 1 = none := by
  refine ⟨?_, ?_⟩
  · simpa using (claim_C5_add_deduction_appends emptyDeductions 0 41 "p_grid").1
  · exact (claim_C5_add_deduction_appends emptyDeductions 0 41 "p_grid").2 1 (by decide)

/-- Claim C6: for the `Joker` variant, `add_deduction` is a no-op on
the state, `check` returns normally on any state and workspace (so in
particular after any sequence of prior `add_deduction` calls), and
`get_value` always fails with the unsupported-operation exception (the
spec's `UnsupportedOperationError`). -/
theorem claim_C6_joker_inert :
    ∀ (st : DimState) (ws : Ctx) (value : Int) (who : String),
      jokerAdd st ws value who = st ∧
      jokerCheck st ws = Except.ok () ∧
      jokerGetValue st ws = Except.error DimError.unsupported :=
  fun _ _ _ _ => ⟨rfl, rfl, rfl⟩

/-- Claim C7: deduction histories are partitioned by workspace: any
sequence of `add_deduction` calls under `ctx1` (conflicting values
included) leaves the entry of a distinct `ctx2` unchanged, and with it
the outcomes of `check ctx2` and `get_value ctx2`. -/
theorem claim_C7_contexts_partitioned :
    ∀ (st : DimState) (ctx1 ctx2 : Ctx) (pairs : List Deduction), ctx1 ≠ ctx2 →
      addDeductions st ctx1 pairs ctx2 = st ctx2 ∧
      check (addDeductions st ctx1 pairs) ctx2 = check st ctx2 ∧
      get_value (addDeductions st ctx1 pairs) ctx2 = get_value st ctx2 := by
  intro st c1 c2 pairs hne
  have h := addDeductions_lookup_other st pairs (Ne.symm hne)
  exact ⟨h, check_eq_of_lookup_eq h, get_value_eq_of_lookup_eq h⟩

/-- Claim C7 witness: recording the conflicting values 41 and 37 under
workspace 0 leaves workspace 1 without an entry and its `check` outcome
unchanged. -/
theorem claim_C7_witness :
    addDeductions emptyDeductions 0 [((41 : Int), "p_grid"), (37, "vmr_field")] 1 = none ∧
    check (addDeductions emptyDeductions 0 [((41 : Int), "p_grid"), (37, "vmr_field")]) 1
      = check emptyDeductions 1 := by
  have h := claim_C7_contexts_partitioned emptyDeductions 0 1
    [(41, "p_grid"), (37, "vmr_field")] (by decide)
  exact ⟨h.1, h.2.1⟩

/-- Claim C8: `check` and `get_value` are pure queries: as state
transformers they return the state unchanged (also when their result is
an error), and consequently running `check` (or `get_value`) again on
the resulting state yields the same outcome. -/
theorem claim_C8_check_pure_idempotent :
    ∀ (st : DimState) (ws : Ctx),
      (checkOp st ws).2 = st ∧
      (get_valueOp st ws).2 = st ∧
      (checkOp (checkOp st ws).2 ws).1 = (checkOp st ws).1 ∧
      (get_valueOp (get_valueOp st ws).2 ws).1 = (get_valueOp st ws).1 :=
  fun _ _ => ⟨rfl, rfl, rfl, rfl⟩

/-- Claim C9: on a workspace whose entry exists but holds the empty
deduction list, `check` succeeds (nothing to compare) and `get_value`
then fails with the empty-list exception of its final branch (the
spec's `NoDeductionError` for the degenerate zero-deductions state). -/
theorem claim_C9_empty_entry :
    ∀ (st : DimState) (ws : Ctx), st ws = some [] →
      check st ws = Except.ok () ∧
      get_value st ws = Except.error (DimError.noDeduction noValueMsg) := by
  intro st ws h
  have hc : check st ws = Except.ok () := by
    simp [check, h, show inconsistencies [] = [] from rfl]
  exact ⟨hc, by simp [get_value, hc, h]⟩

/-- Claim C9 witness: a state whose entry for workspace 0 is the empty
list passes `check` and fails `get_value` with the empty-list
exception. -/
theorem claim_C9_witness :
    check (fun c => if c = 0 then some [] else none) 0 = Except.ok () ∧
    get_value (fun c => if c = 0 then some [] else none) 0
      = Except.error (DimError.noDeduction noValueMsg) :=
  claim_C9_empty_entry (fun c => if c = 0 then some [] else none) 0 rfl

/-- Claim C10: the fresh dimension satisfies the invariant that every
existing entry holds a non-empty list; `add_deduction` preserves it;
`check` and `get_value` do not change the state at all; and under the
invariant `get_value` never fails through its empty-list branch, so that
branch is unreachable through the public interface. -/
theorem claim_C10_nonempty_invariant :
    NonEmptyInv emptyDeductions ∧
    (∀ (st : DimState) (ws : Ctx) (value : Int) (who : String),
        NonEmptyInv st → NonEmptyInv (add_deduction st ws value who)) ∧
    (∀ (st : DimState) (ws : Ctx),
        (checkOp st ws).2 = st ∧ (get_valueOp st ws).2 = st) ∧
    (∀ (st : DimState) (ws : Ctx), NonEmptyInv st →
        get_value st ws ≠ Except.error (DimError.noDeduction noValueMsg)) := by
  refine ⟨?_, ?_, fun _ _ => ⟨rfl, rfl⟩, ?_⟩
  · intro c ds h
    simp [emptyDeductions] at h
  · intro st ws value who hinv c ds h
    by_cases hc : c = ws
    · subst hc
      rw [add_deduction_lookup_self] at h
      obtain rfl := Option.some.inj h
      simp
    · rw [add_deduction_lookup_other st value who hc] at h
      exact hinv c ds h
  · intro st ws hinv
    cases hst : st ws with
    | none =>
      simp [get_value, check, hst, noDeductionsMsg, noValueMsg]
    | some ds =>
      have hne := hinv ws ds hst
      by_cases hi : (inconsistencies ds).length > 0
      · simp [get_value, check, hst, hi]
      · have hlen : ds.length > 0 := List.length_pos.2 hne
        simp [get_value, check, hst, hi, hlen]

/-- Claim C10 witness: the invariant holds after one `add_deduction` on
the fresh dimension, and `get_value` there does not fail through the
empty-list branch. -/
theorem claim_C10_witness :
    NonEmptyInv (add_deduction emptyDeductions 0 41 "p_grid") ∧
    get_value (add_deduction emptyDeductions 0 41 "p_grid") 0
      ≠ Except.error (DimError.noDeduction noValueMsg) := by
  have h0 : NonEmptyInv emptyDeductions := fun c ds h => by
    simp [emptyDeductions] at h
  have h1 := claim_C10_nonempty_invariant.2.1 emptyDeductions 0 41 "p_grid" h0
  exact ⟨h1, claim_C10_nonempty_invariant.2.2.2
    (add_deduction emptyDeductions 0 41 "p_grid") 0 h1⟩

end PARTS
